import Mathlib

/-!
# Shallow embedding of `src/hopscotch.c` (tooein/hopscotch)

This file embeds the hopscotch hash table of `src/hopscotch.c` in Lean and
settles the claims of the specification against it.

Modelling conventions, fixed once for the whole file:

* Machine integers (`key_t`, `uint`, `bitmap_t`) are modelled as `Nat`.  The
  bitmaps produced by the code stay far below any word width in every state
  the claims touch, so no wrap-around is modelled; shifts and masks are the
  corresponding `Nat` operations.  The single place where a C shift amount can
  be negative (`hs_remove`, line 230, `1 << (check_bucket - start_bucket)`)
  is modelled explicitly with an `Int` difference, and a negative amount -
  undefined behavior in C - makes the operation return `none`.
* Pointer arithmetic on the circular bucket array becomes index arithmetic:
  a bucket pointer is the index of the bucket in the segment's array, and the
  source's `if (p > last_bucket) p -= n_buckets_in_segment` wraps become the
  same conditional subtraction on indices, placed exactly where the source
  places them.
* Values (`void *data`) are modelled as `Nat`, with `0` for the null pointer
  the source stores into cleared buckets.
* Locks and the `volatile` qualifier are concurrency devices; the claims
  settled here are about serialized executions, where acquire/release pairs
  have no observable effect.  They are dropped from the state.
* The obvious lexical slips in the source are read as the evident tokens:
  the stray `;` after the headers of `hs_get`/`hs_remove`/`hs_dispose_table`,
  `returne` for `return` (line 211), `hs_bucket_t *hs_bucket_t check_bucket`
  for a single declaration (line 262), `this->bucket` for `this_bucket`
  (line 341), `*free_bucket->data` for `(*free_bucket)->data` (lines 289-290),
  and the missing `&` in `seg->bucket_array[bucket_idx]` (lines 139, 191,
  220).  Semantic content is never repaired: the by-value segment
  initialization of `hs_new`, the early `return mask` of `get_segment_idx`,
  the unconditional overwrite of `move_distance`, the `*dist_travelled =
  bucket_idx` update, the wrap adjustment applied to `check_bucket` instead
  of `new_free_bucket`, the untouched `count` fields and the unimplemented
  `hs_resize` are all modelled exactly as written.
* `hash.h`, `alloc.h`, `sync.h` and `hopscotch.h` are external collaborators
  not present in the repository.  `calculate_hash` is applied by the caller,
  so operations here take the hashed key `hkey` directly; the allocator is
  modelled from the spec (it returns zero-initialized memory, spec section 6);
  `ADD_RANGE` at line 153 is read as the table's `add_range` field, which is
  what the surrounding code (`uint hop_range = table->hop_range`) does for
  the companion constant.
* `hs_put`, `hs_get` and `hs_remove` first route the hashed key to a segment
  through `get_segment_idx` and then work entirely inside that segment.  The
  routing function is embedded separately (`get_segment_idx` below) and the
  per-segment bodies are embedded as functions on one segment state, taking
  the table's configuration fields as explicit arguments.
-/

namespace Hopscotch

/-- One bucket of a segment: `void *data; key_t hkey; bitmap_t hop_info;`
(`src/hopscotch.c` lines 70-74).  `hkey = 0` is the "empty" sentinel. -/
structure hs_bucket_t where
  data : Nat
  hkey : Nat
  hop_info : Nat
  deriving DecidableEq, Repr

instance : Inhabited hs_bucket_t := ⟨⟨0, 0, 0⟩⟩

/-- One segment: its bucket array, item count and displacement timestamp
(`src/hopscotch.c` lines 62-68).  The `lock` field is a concurrency device
with no effect on serialized executions and the `last_bucket` pointer is the
index `n_buckets_in_segment - 1`; neither is part of the state. -/
structure hs_segment_t where
  bucket_array : List hs_bucket_t
  count : Nat
  timestamp : Nat
  deriving DecidableEq, Repr

/-- Write through a bucket pointer: replace bucket `n` by `f` of its current
contents.  (C writes through an `hs_bucket_t *`; all indices used by the
claims are in range, and `List.set` ignores out-of-range indices.) -/
def upd (l : List hs_bucket_t) (n : Nat) (f : hs_bucket_t → hs_bucket_t) :
    List hs_bucket_t :=
  l.set n (f (l.getD n default))

/-- `x &= ~(1 << j)` on a bitmap: clear bit `j`.  For `x` below the bitmap
width this is exactly the C operation. -/
def clearBit (x j : Nat) : Nat :=
  if x.testBit j then x - 2 ^ j else x

/-- The empty segment with `B` buckets: `count = 0`, `timestamp = 0`, every
bucket with `hkey = NULL` and `hop_info = 0`.  This is the state the body of
`hs_new`'s loop (lines 106-116) writes (into its by-value copy; the copy
semantics is settled with claim C5) and the fresh state every claim about
operations starts from. -/
def freshSeg (B : Nat) : hs_segment_t :=
  { bucket_array := List.replicate B default, count := 0, timestamp := 0 }

/-!
## `check_neighborhood` (lines 332-352)

Snapshot the home bucket's `hop_info`, then walk its bits from low to high;
at each set bit compare the pointed-to bucket's `hkey` with the target.  The
walking pointer is wrapped (persistently) only inside the set-bit branch,
exactly as in the source.  The loop runs while the shifted bitmap is
positive; the recursion is driven by a fuel argument which the wrapper
instantiates with the snapshot itself, an upper bound on the number of
one-bits positions of any `Nat` below it, so the fuel never runs out.
-/

/-- Loop of `check_neighborhood`: `hop` is the remaining (shifted) bitmap
snapshot, `r` the raw index of `this_bucket`.  In the set-bit branch the
source first wraps the pointer (`if (this_bucket > last_bucket) this_bucket
-= n_buckets_in_segment;`) and then compares; the two arms below are that
one conditional, spelled out per arm. -/
def cn_go (B : Nat) (bks : List hs_bucket_t) (hkey : Nat) :
    Nat → Nat → Nat → Option Nat
  | 0, _, _ => none
  | fuel + 1, hop, r =>
    if hop = 0 then none
    else if hop % 2 = 1 then
      if r > B - 1 then
        if hkey = (bks.getD (r - B) default).hkey then some (r - B)
        else cn_go B bks hkey fuel (hop / 2) (r - B + 1)
      else
        if hkey = (bks.getD r default).hkey then some r
        else cn_go B bks hkey fuel (hop / 2) (r + 1)
    else cn_go B bks hkey fuel (hop / 2) (r + 1)

/-- `check_neighborhood(table, seg, start_bucket, hkey)`: returns the index
of the bucket holding `hkey` in the neighborhood of home index `home`, or
`none`. -/
def check_neighborhood (B : Nat) (bks : List hs_bucket_t)
    (home hkey : Nat) : Option Nat :=
  let hop := (bks.getD home default).hop_info
  cn_go B bks hkey hop hop home

/-!
## The linear probe of `hs_put` (lines 153-161)

`for (dist_travelled = 0; dist_travelled < ADD_RANGE; dist_travelled++)`,
breaking at the first bucket with `hkey == NULL`; the pointer wraps after
each increment.  Returns the free bucket's index and the distance travelled,
or `none` after `ADD_RANGE` probes.
-/
def probe_go (B : Nat) (bks : List hs_bucket_t) :
    Nat → Nat → Nat → Option (Nat × Nat)
  | 0, _, _ => none
  | fuel + 1, r, d =>
    if (bks.getD r default).hkey = 0 then some (r, d)
    else
      let r1 := r + 1
      probe_go B bks fuel (if r1 > B - 1 then r1 - B else r1) (d + 1)

/-!
## `find_closer_free_bucket` (lines 256-311)
-/

/-- The inner `for` loop of `find_closer_free_bucket` (lines 272-278):
`move_distance = -1; mask = 1 << 1; for (i = 1; i < bucket_idx; i++, mask <<= 1)
if (mask & hop_info) move_distance = i;` - every set bit overwrites the
previous find, so the last (largest) set bit in `[1, bucket_idx)` wins.
`fuel` is the number of remaining iterations. -/
def md_go (hop : Nat) : Nat → Nat → Option Nat → Option Nat
  | 0, _, acc => acc
  | fuel + 1, i, acc =>
    md_go hop fuel (i + 1) (if hop.testBit i then some i else acc)

/-- `move_distance` after the scan loop, for the candidate whose bitmap is
`hop` when the free bucket is at offset `bidx` from it. -/
def moveDistance (hop bidx : Nat) : Option Nat :=
  md_go hop (bidx - 1) 1 none

/-- Result of `find_closer_free_bucket`.  `moved seg free dist` is the state
after a donor swap together with the values written through `*free_bucket`
and `*dist_travelled`; `fail seg` is the no-donor exit (`*free_bucket = NULL`,
`*dist_travelled = 0`), carrying the (unchanged) segment it leaves behind;
`ub` marks the out-of-bounds accesses that follow when the computed
`new_free_bucket` lies past `last_bucket`: the source then wraps
`check_bucket` instead (line 283), after which `check_bucket` points before
the array and `new_free_bucket` past it, and both are dereferenced -
undefined behavior. -/
inductive FcRes where
  | moved (seg : hs_segment_t) (free : Nat) (dist : Nat)
  | fail (seg : hs_segment_t)
  | ub
  deriving DecidableEq, Repr

/-- The donor swap of `find_closer_free_bucket` (lines 286-297), for donor
offset `j` (`move_distance`) from the candidate home at index `check`
(`check_bucket`), free bucket at index `free` and at offset `bidx`
(`bucket_idx`) from the candidate: set bit `bucket_idx` of the candidate's
bitmap, clear bit `move_distance`, copy the donor's `data` and `hkey` into
the free bucket, increment the segment timestamp and empty the donor
bucket. -/
def fc_swap (seg : hs_segment_t) (free check bidx j : Nat) :
    hs_segment_t :=
  -- check_bucket->hop_info |= (1 << bucket_idx);
  let bks1 := upd seg.bucket_array check
    (fun b0 => { b0 with hop_info := b0.hop_info ||| 2 ^ bidx })
  -- check_bucket->hop_info &= ~(1 << move_distance);
  let bks2 := upd bks1 check
    (fun b0 => { b0 with hop_info := clearBit b0.hop_info j })
  -- (*free_bucket)->data = new_free_bucket->data;
  -- (*free_bucket)->hkey = new_free_bucket->hkey;
  let donor := bks2.getD (check + j) default
  let bks3 := upd bks2 free
    (fun b0 => { b0 with data := donor.data, hkey := donor.hkey })
  -- seg->timestamp++; new_free_bucket->hkey = 0; new_free_bucket->data = NULL;
  let bks4 := upd bks3 (check + j) (fun b0 => { b0 with hkey := 0, data := 0 })
  { seg with bucket_array := bks4, timestamp := seg.timestamp + 1 }

/-- The `while (bucket_idx > 0)` loop of `find_closer_free_bucket` (lines
267-308): `check` is the index of the current candidate home `check_bucket`,
the free bucket (index `free`) sits at offset `bidx` from it (`bucket_idx`,
decremented at the end of each round). -/
def fc_loop (B : Nat) (seg : hs_segment_t) (free : Nat) : Nat → Nat → FcRes
  | _check, 0 => FcRes.fail seg
  | check, b + 1 =>
    match moveDistance ((seg.bucket_array.getD check default).hop_info) (b + 1) with
    | none =>
      -- check_bucket++; if (check_bucket > last_bucket) check_bucket -= B;
      let c1 := check + 1
      fc_loop B seg free (if c1 > B - 1 then c1 - B else c1) b
    | some j =>
      -- new_free_bucket = check_bucket + move_distance
      if check + j > B - 1 then FcRes.ub  -- source wraps check_bucket: UB
      else FcRes.moved (fc_swap seg free check (b + 1) j) (check + j) (b + 1)

/-- `find_closer_free_bucket(table, seg, &free_bucket, &dist_travelled)`:
position `check_bucket` at `*free_bucket - (hop_range - 1)` (wrapping, lines
262-265) and run the scan loop with `bucket_idx = hop_range - 1`. -/
def find_closer_free_bucket (B R : Nat) (seg : hs_segment_t) (free : Nat) :
    FcRes :=
  let check := if free < R - 1 then free + B - (R - 1) else free - (R - 1)
  fc_loop B seg free check (R - 1)

/-!
## `hs_put` (lines 131-182)
-/

/-- Outcome of one locked attempt of `hs_put` (the body between
`LOCK_ACQUIRE` and the `resize()` call).  `done seg` covers both the
duplicate-key early return (segment untouched) and a completed insert;
`needResize seg` is the path that falls through to `resize(); hs_put(...)`;
`ub` marks a round of `find_closer_free_bucket` that ran into the
out-of-bounds accesses described at `FcRes.ub` (never reached by fuel
exhaustion: a successful displacement returns `dist = bucket_idx ≤ R - 1 <
hop_range`, so the `do` loop body runs at most twice, and the fuel
`dist + 1` is ample). -/
inductive PutRes where
  | done (seg : hs_segment_t)
  | needResize (seg : hs_segment_t)
  | ub
  deriving DecidableEq, Repr

/-- The `do { ... } while (free_bucket != NULL)` loop of `hs_put` (lines
164-175): if `dist_travelled < hop_range`, set bit `dist_travelled` of the
home bucket's bitmap and write the key and value into the free bucket
(lines 165-170); otherwise displace and continue with the returned free
bucket and distance. -/
def put_loop (B R : Nat) (home hkey data : Nat) :
    hs_segment_t → Nat → Nat → Nat → PutRes
  | _, _, _, 0 => PutRes.ub
  | seg, free, d, fuel + 1 =>
    if d < R then
      -- start_bucket->hop_info |= (1 << dist_travelled);
      -- free_bucket->hkey = hkey; free_bucket->data = data;
      let bks1 := upd seg.bucket_array home
        (fun b0 => { b0 with hop_info := b0.hop_info ||| 2 ^ d })
      let bks2 := upd bks1 free (fun b0 => { b0 with hkey := hkey, data := data })
      PutRes.done { seg with bucket_array := bks2 }
    else
      match find_closer_free_bucket B R seg free with
      | FcRes.moved seg1 free1 d1 => put_loop B R home hkey data seg1 free1 d1 fuel
      | FcRes.fail seg1 => PutRes.needResize seg1
      | FcRes.ub => PutRes.ub

/-- The locked body of `hs_put(table, key, data)` on the segment the hashed
key routes to: bail out if the key is present (lines 143-147), linear-probe
for a free bucket within `add_range` (lines 153-161), then run the
displacement loop; if no free bucket is found within `add_range` probes,
fall through to the resize path (lines 178-181). -/
def hs_put_seg (B R A : Nat) (seg : hs_segment_t) (hkey data : Nat) : PutRes :=
  let bucket_idx := hkey % B
  match check_neighborhood B seg.bucket_array bucket_idx hkey with
  | some _ => PutRes.done seg
  | none =>
    match probe_go B seg.bucket_array A bucket_idx 0 with
    | some (free, d) => put_loop B R bucket_idx hkey data seg free d (d + 1)
    | none => PutRes.needResize seg

/-- `hs_resize` (lines 313-318): `// Not implemented`.  The table is
returned unchanged. -/
def hs_resize (seg : hs_segment_t) : hs_segment_t := seg

/-- Final outcome of `hs_put` including its restart recursion. -/
inductive PutOut where
  | ok (seg : hs_segment_t)
  | diverge
  | undef
  deriving DecidableEq, Repr

/-- `hs_put` with its tail recursion `resize(); hs_put(table, key, data);`
(lines 179-180).  `fuel` counts attempts; `PutOut.diverge` means no attempt
within `fuel` restarts produced a result. -/
def hs_putFuel (B R A : Nat) : Nat → hs_segment_t → Nat → Nat → PutOut
  | 0, _, _, _ => PutOut.diverge
  | fuel + 1, seg, hkey, data =>
    match hs_put_seg B R A seg hkey data with
    | PutRes.done s => PutOut.ok s
    | PutRes.needResize s => hs_putFuel B R A fuel (hs_resize s) hkey data
    | PutRes.ub => PutOut.undef

/-!
## `hs_get` (lines 184-212)

The retry loop is state-passing: the function only reads the segment, and
the pair it returns carries the segment state it leaves behind, so that the
frame claim (C10) is a theorem about the definition rather than a modelling
choice.  `try_counter` and the timestamp snapshot follow the source; the
loop condition `try_counter < max_tries && timestamp != seg->timestamp` is
evaluated against the (unchanged) segment.
-/
def hs_get_go (B T : Nat) (home hkey : Nat) :
    hs_segment_t → Nat → Nat → Option Nat × hs_segment_t
  | seg, _, 0 => (none, seg)
  | seg, try_counter, fuel + 1 =>
    let ts := seg.timestamp
    match check_neighborhood B seg.bucket_array home hkey with
    | some i => (some ((seg.bucket_array.getD i default).data), seg)
    | none =>
      if try_counter + 1 < T ∧ ¬ ts = seg.timestamp then
        hs_get_go B T home hkey seg (try_counter + 1) fuel
      else (none, seg)

/-- `hs_get(table, key)` on the segment the hashed key routes to; returns
the looked-up value (`none` for the `NULL` miss) and the segment state after
the call. -/
def hs_get (B T : Nat) (seg : hs_segment_t) (hkey : Nat) :
    Option Nat × hs_segment_t :=
  hs_get_go B T (hkey % B) hkey seg 0 (T + 1)

/-!
## `hs_remove` (lines 214-236)
-/

/-- The bucket-array writes of a successful `hs_remove` (lines 228-230),
for a match at index `i` with home index `home` and `home ≤ i` (the
nonnegative-shift case): empty the matched bucket, then clear bit
`i - home` of the home bucket's bitmap. -/
def remove_upd (bks : List hs_bucket_t) (home i : Nat) : List hs_bucket_t :=
  -- check_bucket->hkey = NULL; check_bucket->data = NULL;
  let bks1 := upd bks i (fun b0 => { b0 with hkey := 0, data := 0 })
  -- start_bucket->hop_info &= ~(1 << (check_bucket - start_bucket));
  upd bks1 home
    (fun b0 => { b0 with hop_info := clearBit b0.hop_info (i - home) })

/-- `hs_remove(table, key)` on the segment the hashed key routes to.  On a
hit the source saves the data, clears the bucket's `hkey` and `data` (lines
227-229) and then executes
`start_bucket->hop_info &= ~(1 << (check_bucket - start_bucket));`
(line 230).  The shift amount is the raw pointer difference; when the
matching bucket wrapped past the segment end it is negative, and a shift by
a negative amount is undefined behavior in C - modelled as `none`.  The
result is otherwise the returned data (`none` for the `NULL` miss) and the
segment state after the call. -/
def hs_remove (B : Nat) (seg : hs_segment_t) (hkey : Nat) :
    Option (Option Nat × hs_segment_t) :=
  let bucket_idx := hkey % B
  match check_neighborhood B seg.bucket_array bucket_idx hkey with
  | none => some (none, seg)
  | some i =>
    let data := (seg.bucket_array.getD i default).data
    if (i : Int) - (bucket_idx : Int) < 0 then none
    else
      some (some data,
        { seg with bucket_array := remove_upd seg.bucket_array bucket_idx i })

/-!
## `get_segment_idx` (lines 320-330)
-/

/-- The mask-building loop of `get_segment_idx` (lines 322-326):
`mask = 0; for (i = 0; i < nbits; ++i) mask |= 1 << i;`. -/
def buildMask : Nat → Nat
  | 0 => 0
  | n + 1 => buildMask n ||| 2 ^ n

/-- `get_segment_idx(table, hkey)`, with `W = sizeof(key_t) * 8` (the hashed
key width, from the missing `hopscotch.h`) and `S = table->n_segments`:
`nbits = W - log2(S)`, build the mask of the low `nbits` bits, and then
`return mask;` (line 327) - the `return hkey & mask;` at line 329 is
unreachable.  The argument `hkey` is therefore never consulted. -/
def get_segment_idx (W S hkey : Nat) : Nat :=
  let nbits := W - Nat.log2 S
  let mask := buildMask nbits
  mask

/-!
## `hs_new` (lines 94-129)
-/

/-- A segment record as it sits in the table's `segment_array`:
`bucket_array` is a pointer, `none` standing for `NULL`. -/
structure hs_segment_raw where
  bucket_array : Option (List hs_bucket_t)
  count : Nat
  timestamp : Nat
  deriving DecidableEq, Repr

/-- The table record (lines 47-60). -/
structure hs_table_t where
  segment_array : List hs_segment_raw
  n_buckets_in_segment : Nat
  n_segments : Nat
  hop_range : Nat
  add_range : Nat
  max_tries : Nat
  segment_mask : Nat
  deriving DecidableEq, Repr

/-- What one iteration of `hs_new`'s loop builds (lines 106-116):
`hs_segment_t seg = new_table->segment_array[i];` declares a *by-value
copy*; the iteration then initializes `seg.count`, `seg.timestamp`, points
`seg.bucket_array` at a fresh allocation and empties its `B` buckets
(`hkey = NULL`, `hop_info = 0`; the allocation is zero-initialized, so
`data = 0` as well).  All of this lands in the local copy. -/
def hs_new_local_copy (B : Nat) : hs_segment_raw :=
  { bucket_array := some (List.replicate B default), count := 0,
    timestamp := 0 }

/-- The loop of `hs_new` (lines 105-117): each iteration builds
`hs_new_local_copy B` and discards it; nothing is ever stored back into
`segment_array`, which is returned as the allocator produced it. -/
def hs_new_loop (arr : List hs_segment_raw) (B : Nat) : Nat → List hs_segment_raw
  | 0 => arr
  | i + 1 =>
    let _seg := hs_new_local_copy B
    hs_new_loop arr B i

/-- `hs_new(n_segments, n_buckets_in_segment, hop_range, add_range,
max_tries, hash)`.  `ALLOCATE` is the external allocator; modelled from the
spec: it returns zero-initialized memory (spec section 6), so every freshly
allocated segment record reads as `bucket_array = NULL`, `count = 0`,
`timestamp = 0`.  `get_segment_mask` lives in the missing header; modelled
from the spec: `segment_mask = n_segments - 1` (spec section 4.1). -/
def hs_new (S B R A T : Nat) : hs_table_t :=
  let segment_array : List hs_segment_raw :=
    List.replicate S { bucket_array := none, count := 0, timestamp := 0 }
  { segment_array := hs_new_loop segment_array B S,
    n_segments := S,
    n_buckets_in_segment := B,
    hop_range := R,
    add_range := A,
    max_tries := T,
    segment_mask := S - 1 }

/-!
## Concrete states used by the claims

The hash function is an external collaborator; following the spec's test
scenarios (section 8: identity hash on integers, low bit forced to avoid the
sentinel), keys below are their own nonzero hashed keys, so distinct keys
are distinct hashed keys.
-/

/-- Run a serialized sequence of puts on one segment, requiring every one of
them to complete (`PutRes.done`); `none` if any attempt bails to the resize
path or to undefined behavior. -/
def putList (B R A : Nat) : hs_segment_t → List (Nat × Nat) → Option hs_segment_t
  | seg, [] => some seg
  | seg, (k, v) :: t =>
    match hs_put_seg B R A seg k v with
    | PutRes.done s => putList B R A s t
    | PutRes.needResize _ => none
    | PutRes.ub => none

/-- Six distinct nonzero keys for a segment with `B = 16`, `R = 4`,
`A = 16`: three with home bucket 2, then two with home bucket 0, then one
more with home bucket 0 whose insertion probes to distance 5 and triggers
one displacement round. -/
def c1kvs : List (Nat × Nat) :=
  [(2, 102), (18, 118), (34, 134), (16, 116), (32, 132), (48, 148)]

/-- The segment after the six serialized puts of `c1kvs` on a fresh
`B = 16` segment. -/
def c1final : hs_segment_t :=
  (putList 16 4 16 (freshSeg 16) c1kvs).getD (freshSeg 16)

/-- `B = 4` segment holding hashed key 3 (home bucket 3) in bucket 0, i.e.
at wrapped offset 1: bit 1 of bucket 3's bitmap is set and the key sits in
bucket `(3 + 1) mod 4 = 0`.  Reachable by `hs_put` on a segment whose
buckets 3 and then 0 are probed (put of key 3 after bucket 3 is occupied
and freed again leaves exactly this shape); used to exhibit the negative
shift in `hs_remove`. -/
def c4wseg : hs_segment_t :=
  { bucket_array := [⟨33, 3, 0⟩, default, default, ⟨0, 0, 2⟩],
    count := 0, timestamp := 0 }

/-- `B = 4` segment holding hashed key 5 (home bucket 1) in its home
bucket: the shape `hs_put_seg 4 2 4 (freshSeg 4) 5 55` produces. -/
def c4seg : hs_segment_t :=
  { bucket_array := [default, ⟨55, 5, 1⟩, default, default],
    count := 0, timestamp := 0 }

/-- `B = 8`, `R = 4` segment for the displacement wrap counterexample:
bucket 6 is an empty home whose bit 2 is set, its key (hashed key 6, stored
in bucket `(6 + 2) mod 8 = 0`) having been displaced around the segment end;
bucket 1 is free.  A displacement round for free bucket 1 positions
`check_bucket` at index 6, finds `move_distance = 2` and computes
`new_free_bucket = check_bucket + 2`, one past `last_bucket`. -/
def c7wseg : hs_segment_t :=
  { bucket_array := [⟨66, 6, 0⟩, default, default, default, default,
      default, ⟨0, 0, 4⟩, default],
    count := 0, timestamp := 0 }

/-- A full `B = A = R = 2` segment (hashed key 2 in bucket 0, hashed key 1
in bucket 1), as produced by two puts on a fresh segment. -/
def c9full : hs_segment_t :=
  { bucket_array := [⟨22, 2, 1⟩, ⟨11, 1, 1⟩], count := 0, timestamp := 0 }

/-- The segment after one put (hashed key 1, value 7) on a fresh `B = 4`
segment. -/
def c6seg : hs_segment_t :=
  (putList 4 2 4 (freshSeg 4) [(1, 7)]).getD (freshSeg 4)

/-- `B = 8` segment for a non-wrapping displacement round: the candidate at
index 2 has bits 1 and 2 set (keys 10 in bucket 3 and 18 in bucket 4, both
with home 2), bucket 5 is free. -/
def c7seg : hs_segment_t :=
  { bucket_array := [default, default, ⟨0, 0, 6⟩, ⟨20, 10, 0⟩, ⟨28, 18, 0⟩,
      default, default, default],
    count := 0, timestamp := 0 }

/-!
## General lemmas about the embedded operations
-/

theorem upd_length (l : List hs_bucket_t) (n : Nat) (f : hs_bucket_t → hs_bucket_t) :
    (upd l n f).length = l.length := by
  simp [upd]

theorem upd_getD_ne (l : List hs_bucket_t) (n m : Nat)
    (f : hs_bucket_t → hs_bucket_t) (h : m ≠ n) :
    (upd l n f).getD m default = l.getD m default := by
  simp [upd, List.getD, List.getElem?_set_ne (Ne.symm h)]

theorem upd_getD_self (l : List hs_bucket_t) (n : Nat)
    (f : hs_bucket_t → hs_bucket_t) (h : n < l.length) :
    (upd l n f).getD n default = f (l.getD n default) := by
  simp [upd, List.getD, List.getElem?_set_self, h]

theorem getD_of_len_le (l : List hs_bucket_t) (n : Nat) (h : l.length ≤ n) :
    l.getD n default = default := by
  simp [List.getD, List.getElem?_eq_none h]

/-- Soundness of the neighborhood scan: a returned bucket holds the looked-up
hashed key. -/
theorem cn_go_hkey {B : Nat} {bks : List hs_bucket_t} {hkey : Nat} :
    ∀ {fuel hop r i : Nat}, cn_go B bks hkey fuel hop r = some i →
      (bks.getD i default).hkey = hkey := by
  intro fuel
  induction fuel with
  | zero => intro hop r i h; simp [cn_go] at h
  | succ n ih =>
    intro hop r i h
    rw [cn_go] at h
    split at h
    · exact absurd h (by simp)
    · split at h
      · split at h
        · split at h
          · rename_i heq
            obtain rfl := Option.some.inj h
            exact heq.symm
          · exact ih h
        · split at h
          · rename_i heq
            obtain rfl := Option.some.inj h
            exact heq.symm
          · exact ih h
      · exact ih h

/-- If no bucket of the array holds `hkey`, the scan misses. -/
theorem cn_go_none {B : Nat} {bks : List hs_bucket_t} {hkey : Nat}
    (hk : ∀ j, (bks.getD j default).hkey ≠ hkey) :
    ∀ fuel hop r, cn_go B bks hkey fuel hop r = none := by
  intro fuel
  induction fuel with
  | zero => intro hop r; simp [cn_go]
  | succ n ih =>
    intro hop r
    rw [cn_go]
    split
    · rfl
    · split
      · split
        · rw [if_neg (fun heq => hk _ heq.symm)]
          exact ih _ _
        · rw [if_neg (fun heq => hk _ heq.symm)]
          exact ih _ _
      · exact ih _ _

theorem check_neighborhood_hkey {B : Nat} {bks : List hs_bucket_t}
    {home hkey i : Nat} (h : check_neighborhood B bks home hkey = some i) :
    (bks.getD i default).hkey = hkey :=
  cn_go_hkey h

theorem check_neighborhood_none {B : Nat} {bks : List hs_bucket_t}
    {home hkey : Nat} (hk : ∀ j, (bks.getD j default).hkey ≠ hkey) :
    check_neighborhood B bks home hkey = none :=
  cn_go_none hk _ _ _

/-- The retry loop of `hs_get` never writes the segment. -/
theorem hs_get_go_snd (B T home hkey : Nat) :
    ∀ (fuel : Nat) (seg : hs_segment_t) (try_counter : Nat),
      (hs_get_go B T home hkey seg try_counter fuel).2 = seg := by
  intro fuel
  induction fuel with
  | zero => intro seg t; rfl
  | succ n ih =>
    intro seg t
    rw [hs_get_go]
    split
    · rfl
    · split
      · exact ih seg (t + 1)
      · rfl

/-- In a serialized execution the timestamp guard of `hs_get`'s retry loop is
never taken, so the call is a single neighborhood scan: on a hit it returns
that bucket's data, on a miss `NULL`. -/
theorem hs_get_eq_of_cn_some {B T : Nat} {seg : hs_segment_t} {hkey i : Nat}
    (h : check_neighborhood B seg.bucket_array (hkey % B) hkey = some i) :
    hs_get B T seg hkey = (some ((seg.bucket_array.getD i default).data), seg) := by
  rw [hs_get, hs_get_go, h]

theorem hs_get_eq_of_cn_none {B T : Nat} {seg : hs_segment_t} {hkey : Nat}
    (h : check_neighborhood B seg.bucket_array (hkey % B) hkey = none) :
    hs_get B T seg hkey = (none, seg) := by
  rw [hs_get, hs_get_go, h]
  simp

/-- A hit of `hs_get` comes from a hit of the neighborhood scan. -/
theorem hs_get_fst_some {B T : Nat} {seg : hs_segment_t} {hkey v : Nat}
    (h : (hs_get B T seg hkey).1 = some v) :
    ∃ i, check_neighborhood B seg.bucket_array (hkey % B) hkey = some i ∧
      (seg.bucket_array.getD i default).data = v := by
  cases hcn : check_neighborhood B seg.bucket_array (hkey % B) hkey with
  | none => rw [hs_get_eq_of_cn_none hcn] at h; exact absurd h (by simp)
  | some i =>
    rw [hs_get_eq_of_cn_some hcn] at h
    exact ⟨i, rfl, Option.some.inj h⟩

/-- The scan loop of `find_closer_free_bucket` keeps the last set bit it
sees: if no bit of `hop` in `[i, i + fuel)` is set, the accumulator
survives. -/
theorem md_go_no_bit {hop : Nat} :
    ∀ {fuel i : Nat} {acc : Option Nat},
      (∀ m, i ≤ m → m < i + fuel → hop.testBit m = false) →
      md_go hop fuel i acc = acc := by
  intro fuel
  induction fuel with
  | zero => intro i acc _; rfl
  | succ n ih =>
    intro i acc h
    rw [md_go, h i le_rfl (by omega), if_neg Bool.false_ne_true]
    exact ih (fun m h1 h2 => h m (by omega) (by omega))

/-- If bit `j` of `hop` is set with `i ≤ j < i + fuel` and no later bit in
the window is set, the scan loop returns `j`. -/
theorem md_go_last {hop : Nat} :
    ∀ {fuel i j : Nat} {acc : Option Nat},
      i ≤ j → j < i + fuel → hop.testBit j = true →
      (∀ m, j < m → m < i + fuel → hop.testBit m = false) →
      md_go hop fuel i acc = some j := by
  intro fuel
  induction fuel with
  | zero => intro i j acc h1 h2; omega
  | succ n ih =>
    intro i j acc h1 h2 hj hafter
    rw [md_go]
    rcases Nat.eq_or_lt_of_le h1 with rfl | hlt
    · rw [hj, if_pos rfl]
      exact md_go_no_bit (fun m hm1 hm2 => hafter m (by omega) (by omega))
    · exact ih hlt (by omega) hj (fun m hm1 hm2 => hafter m hm1 (by omega))

/-- Inversion for the scan loop. -/
theorem md_go_some {hop : Nat} :
    ∀ {fuel i j : Nat} {acc : Option Nat}, md_go hop fuel i acc = some j →
      (i ≤ j ∧ j < i + fuel ∧ hop.testBit j = true ∧
        ∀ m, j < m → m < i + fuel → hop.testBit m = false) ∨
      (acc = some j ∧ ∀ m, i ≤ m → m < i + fuel → hop.testBit m = false) := by
  intro fuel
  induction fuel with
  | zero => intro i j acc h; exact Or.inr ⟨h, fun m h1 h2 => by omega⟩
  | succ n ih =>
    intro i j acc h
    rw [md_go] at h
    rcases ih h with ⟨h1, h2, h3, h4⟩ | ⟨hacc, hnone⟩
    · exact Or.inl ⟨by omega, by omega, h3, fun m hm1 hm2 => h4 m hm1 (by omega)⟩
    · by_cases hbit : hop.testBit i
      · rw [if_pos hbit] at hacc
        obtain rfl : i = j := Option.some.inj hacc
        exact Or.inl ⟨le_rfl, by omega, hbit,
          fun m hm1 hm2 => hnone m (by omega) (by omega)⟩
      · rw [if_neg hbit] at hacc
        refine Or.inr ⟨hacc, fun m hm1 hm2 => ?_⟩
        rcases Nat.eq_or_lt_of_le hm1 with rfl | hm
        · exact Bool.eq_false_iff.mpr hbit
        · exact hnone m hm (by omega)

/-- `move_distance` is exactly the largest `j` with `1 ≤ j < bucket_idx`
whose bit is set in the candidate's bitmap. -/
theorem moveDistance_some_iff (hop bidx j : Nat) :
    moveDistance hop bidx = some j ↔
      (1 ≤ j ∧ j < bidx ∧ hop.testBit j = true ∧
        ∀ m, j < m → m < bidx → hop.testBit m = false) := by
  constructor
  · intro h
    rcases md_go_some h with ⟨h1, h2, h3, h4⟩ | ⟨hacc, _⟩
    · have hb : 1 ≤ bidx := by omega
      exact ⟨h1, by omega, h3, fun m hm1 hm2 => h4 m hm1 (by omega)⟩
    · exact absurd hacc (by simp)
  · rintro ⟨h1, h2, h3, h4⟩
    exact md_go_last h1 (by omega) h3 (fun m hm1 hm2 => h4 m hm1 (by omega))

/-- The advance of `check_bucket` at the end of a displacement round. -/
def fc_step (B c : Nat) : Nat := if c + 1 > B - 1 then c + 1 - B else c + 1

/-- The candidate index visited `t` rounds after starting at `check`. -/
def fc_path (B : Nat) : Nat → Nat → Nat
  | check, 0 => check
  | check, t + 1 => fc_path B (fc_step B check) t

/-- A failing displacement scan leaves the segment untouched. -/
theorem fc_loop_fail {B : Nat} {seg s : hs_segment_t} {free : Nat} :
    ∀ {bidx check : Nat}, fc_loop B seg free check bidx = FcRes.fail s →
      s = seg := by
  intro bidx
  induction bidx with
  | zero => intro check h; cases h; rfl
  | succ n ih =>
    intro check h
    rw [fc_loop] at h
    split at h
    · exact ih h
    · split at h
      · cases h
      · cases h

/-- If no round of the displacement scan finds a movable donor, the scan
reports failure with the segment untouched. -/
theorem fc_loop_fail_of_no_donor {B : Nat} {seg : hs_segment_t} {free : Nat} :
    ∀ {bidx check : Nat},
      (∀ t, t < bidx →
        moveDistance ((seg.bucket_array.getD (fc_path B check t) default).hop_info)
          (bidx - t) = none) →
      fc_loop B seg free check bidx = FcRes.fail seg := by
  intro bidx
  induction bidx with
  | zero => intro check _; rfl
  | succ n ih =>
    intro check h
    have h0 := h 0 (Nat.succ_pos n)
    simp only [fc_path, Nat.sub_zero] at h0
    rw [fc_loop, h0]
    refine ih (fun t ht => ?_)
    have ht1 := h (t + 1) (by omega)
    simpa [fc_path, Nat.succ_sub_succ] using ht1

/-- Lift a uniqueness check over the (finitely many) buckets of an array to
all indices: out-of-range reads give the default bucket, whose `hkey` is the
sentinel. -/
theorem uniq_key_of_bounded (bks : List hs_bucket_t) (k : Nat) (hk : k ≠ 0)
    (h : ∀ j1, j1 < bks.length → ∀ j2, j2 < bks.length →
      (bks.getD j1 default).hkey = k → (bks.getD j2 default).hkey = k →
      j1 = j2) :
    ∀ j1 j2, (bks.getD j1 default).hkey = k →
      (bks.getD j2 default).hkey = k → j1 = j2 := by
  intro j1 j2 h1 h2
  have hb1 : j1 < bks.length := by
    by_contra hge
    rw [getD_of_len_le _ _ (by omega)] at h1
    exact hk h1.symm
  have hb2 : j2 < bks.length := by
    by_contra hge
    rw [getD_of_len_le _ _ (by omega)] at h2
    exact hk h2.symm
  exact h j1 hb1 j2 hb2 h1 h2

/-!
## The claims
-/

/-- C1: the round-trip property fails on the code.  The six serialized puts
of the pairwise-distinct nonzero hashed keys of `c1kvs` into a fresh
`B = 16`, `R = 4`, `A = 16` segment all complete (`putList` returns `some`),
yet `get` of the key 48 put last returns Absent.  Cause: inserting 48 (home
bucket 0) probes to the free bucket at distance 5, one displacement round
moves the donor at bucket 4 (key 34, home 2) into bucket 5, and
`find_closer_free_bucket` reports `*dist_travelled = bucket_idx = 3`
(line 299) although the new free bucket 4 lies at offset 4 from home 0;
`hs_put` then sets bit 3 of home 0's bitmap and stores 48 in bucket 4,
where no scan of home 0's neighborhood ever looks. -/
theorem c1_roundtrip_fails :
    (c1kvs.map Prod.fst).Nodup ∧ (∀ kv ∈ c1kvs, kv.1 ≠ 0) ∧
    putList 16 4 16 (freshSeg 16) c1kvs = some c1final ∧
    (48, 148) ∈ c1kvs ∧
    (hs_get 16 3 c1final 48).1 = none := by decide

/-- C2: `get_segment_idx` does not select the low `log2 S` bits.  With a
32-bit hashed key width and `S = 4` segments, the function returns its local
`mask` - the constant `2 ^ 30 - 1` built from `nbits = 32 - log2 4` low bits
(line 327) - for every hashed key, instead of `hkey AND (S - 1)`; for
`hkey = 5` the claim's segment index is `5 AND 3 = 1`.  (Even the
unreachable `return hkey & mask;` at line 329 would give `5`, again not
`1`: the mask keeps the low `W - log2 S` bits, the complement count.) -/
theorem c2_segment_idx_returns_mask :
    get_segment_idx 32 4 5 = 2 ^ 30 - 1 ∧
    get_segment_idx 32 4 5 ≠ 5 &&& (4 - 1) ∧
    (5 : Nat) &&& (4 - 1) = 1 ∧
    5 &&& buildMask (32 - Nat.log2 4) = 5 := by
  have hlog : (32 : Nat) - Nat.log2 4 = 30 := by simp [Nat.log2]
  simp only [get_segment_idx, hlog]
  decide

/-- C3: first-writer-wins put, confirmed.  If `get` currently returns `v`
for hashed key `k` (so the neighborhood scan finds `k`), then
`hs_put(k, v')` takes the early exit at lines 144-147 and returns with the
segment exactly unchanged, and `get k` still returns `v`. -/
theorem c3_first_writer_wins (B R A T : Nat) (seg : hs_segment_t)
    (k v d : Nat) (h : (hs_get B T seg k).1 = some v) :
    hs_put_seg B R A seg k d = PutRes.done seg ∧
    (hs_get B T seg k).1 = some v := by
  obtain ⟨i, hcn, _⟩ := hs_get_fst_some h
  refine ⟨?_, h⟩
  simp only [hs_put_seg, hcn]

/-- Witness for C3: the segment `c4seg` binds hashed key 5 to 55; a second
put of 5 with value 99 returns the segment unchanged. -/
theorem c3_first_writer_wins_witness :
    hs_put_seg 4 2 4 c4seg 5 99 = PutRes.done c4seg ∧
    (hs_get 4 3 c4seg 5).1 = some 55 :=
  c3_first_writer_wins 4 2 4 3 c4seg 5 55 99 (by decide)

/-- C4 counterexample: in `c4wseg` the hashed key 3 (home bucket 3 of a
`B = 4` segment) is bound to 33 in the wrapped bucket 0 - `get` finds it -
but `hs_remove` of that key is undefined: the bit-clear at line 230 shifts
by the raw pointer difference `check_bucket - start_bucket = 0 - 3 = -3`. -/
theorem c4_remove_wrapped_undefined :
    (hs_get 4 3 c4wseg 3).1 = some 33 ∧ hs_remove 4 c4wseg 3 = none := by
  decide

/-- C4, amended: provided the bucket holding the key does not wrap past the
segment end (its index is at least the home index, so the shift amount at
line 230 is nonnegative) and the key is held by exactly one bucket, removal
behaves as claimed: `remove(k)` returns the bound value and unbinds `k`,
after it `get(k)` returns Absent and a second `remove(k)` returns Absent
leaving the segment unchanged; and for a key the neighborhood scan does not
find, `remove` returns Absent and leaves the segment unchanged.  (For a
wrapped binding the shift amount is negative and the behavior undefined;
see the counterexample.) -/
theorem c4_remove_amended (B T : Nat) (seg : hs_segment_t) (k : Nat)
    (hB : 0 < B) (hlen : seg.bucket_array.length = B) (hk : k ≠ 0)
    (huniq : ∀ j1 j2, (seg.bucket_array.getD j1 default).hkey = k →
      (seg.bucket_array.getD j2 default).hkey = k → j1 = j2) :
    (check_neighborhood B seg.bucket_array (k % B) k = none →
      hs_remove B seg k = some (none, seg)) ∧
    (∀ i, check_neighborhood B seg.bucket_array (k % B) k = some i →
      k % B ≤ i →
      ∃ seg1, hs_remove B seg k =
          some (some ((seg.bucket_array.getD i default).data), seg1) ∧
        (hs_get B T seg1 k).1 = none ∧
        hs_remove B seg1 k = some (none, seg1)) := by
  constructor
  · intro hcn
    simp only [hs_remove, hcn]
  · intro i hcn hwrap
    have hik : (seg.bucket_array.getD i default).hkey = k :=
      check_neighborhood_hkey hcn
    have hiB : i < B := by
      by_contra hge
      rw [getD_of_len_le _ _ (by omega)] at hik
      exact hk hik.symm
    have hnn : ¬ ((i : Int) - ((k % B : Nat) : Int) < 0) := by
      have := Int.ofNat_le.mpr hwrap
      omega
    have hrem : hs_remove B seg k =
        some (some ((seg.bucket_array.getD i default).data),
          { seg with bucket_array := remove_upd seg.bucket_array (k % B) i }) := by
      simp only [hs_remove, hcn]
      rw [if_neg hnn]
    have hlen1 : (upd seg.bucket_array i
        (fun b0 => { b0 with hkey := 0, data := 0 })).length = B := by
      rw [upd_length, hlen]
    have key_j : ∀ j, ((remove_upd seg.bucket_array (k % B) i).getD j default).hkey
        = if j = i then 0 else (seg.bucket_array.getD j default).hkey := by
      intro j
      simp only [remove_upd]
      by_cases hjh : j = k % B
      · subst hjh
        rw [upd_getD_self _ _ _ (by rw [hlen1]; exact Nat.mod_lt _ hB)]
        by_cases hhi : k % B = i
        · rw [if_pos hhi, hhi,
            upd_getD_self _ _ _ (by rw [hlen]; exact hiB)]
        · rw [if_neg hhi, upd_getD_ne _ _ _ _ hhi]
      · rw [upd_getD_ne _ _ _ _ hjh]
        by_cases hji : j = i
        · subst hji
          rw [upd_getD_self _ _ _ (by rw [hlen]; exact hiB), if_pos rfl]
        · rw [upd_getD_ne _ _ _ _ hji, if_neg hji]
    have hnok : ∀ j, ((remove_upd seg.bucket_array (k % B) i).getD j default).hkey
        ≠ k := by
      intro j
      rw [key_j]
      by_cases hji : j = i
      · rw [if_pos hji]
        exact fun h0 => hk h0.symm
      · rw [if_neg hji]
        exact fun hkj => hji (huniq j i hkj hik)
    have hcn1 : check_neighborhood B (remove_upd seg.bucket_array (k % B) i)
        (k % B) k = none :=
      check_neighborhood_none hnok
    refine ⟨{ seg with bucket_array := remove_upd seg.bucket_array (k % B) i },
      hrem, ?_, ?_⟩
    · rw [hs_get_eq_of_cn_none hcn1]
    · simp only [hs_remove, hcn1]

/-- Witness for C4 (amended): removing hashed key 5 (bound to 55 in its home
bucket 1 of `c4seg`) returns 55; afterwards `get` and a second `remove`
both return Absent. -/
theorem c4_remove_amended_witness :
    ∃ seg1, hs_remove 4 c4seg 5 = some (some 55, seg1) ∧
      (hs_get 4 3 seg1 5).1 = none ∧
      hs_remove 4 seg1 5 = some (none, seg1) := by
  have h := (c4_remove_amended 4 3 c4seg 5 (by decide) (by decide) (by decide)
      (uniq_key_of_bounded _ _ (by decide) (by decide))).2
    1 (by decide) (by decide)
  exact h

/-- C5: `hs_new` does not produce initialized segments.  The loop at lines
105-117 initializes a *by-value copy* (`hs_segment_t seg =
new_table->segment_array[i];`) and discards it, so the returned table's
segments are exactly what the (zero-initializing) allocator produced:
`count = 0` and `timestamp = 0` hold, but `bucket_array` is the null
pointer - there are no `B` empty buckets, and any operation on the table
dereferences null. -/
theorem c5_new_leaves_buckets_unallocated :
    (hs_new 2 2 2 2 2).segment_array.length = 2 ∧
    ∀ sraw ∈ (hs_new 2 2 2 2 2).segment_array,
      sraw.bucket_array = none ∧ sraw.count = 0 ∧ sraw.timestamp = 0 := by
  decide

/-- C6: the count invariant fails at the first put.  After one completed put
of hashed key 1 into a fresh `B = 4` segment, the segment holds exactly one
non-empty bucket, but `count` is still 0: neither `hs_put` (lines 163-176)
nor `hs_remove` (lines 224-233) ever touches `seg->count`. -/
theorem c6_count_never_updated :
    putList 4 2 4 (freshSeg 4) [(1, 7)] = some c6seg ∧
    (c6seg.bucket_array.filter (fun b => b.hkey != 0)).length = 1 ∧
    c6seg.count = 0 := by decide

/-- C7 counterexample: a displacement round whose donor lies past the
segment's last bucket does not move the donor into the free bucket.  In
`c7wseg` (`B = 8`, `R = 4`) the free bucket is 1, the candidate scan starts
at bucket `1 - 3 + 8 = 6`, bucket 6's bitmap selects `move_distance = 2`,
and `new_free_bucket = 6 + 2` is one past `last_bucket`; the source then
wraps `check_bucket` instead of `new_free_bucket` (line 283) and proceeds to
read and write out of bounds - undefined behavior instead of the claimed
swap of the donor at bucket `(6 + 2) mod 8 = 0`. -/
theorem c7_donor_wrap_out_of_bounds :
    (c7wseg.bucket_array.getD 1 default).hkey = 0 ∧
    (c7wseg.bucket_array.getD 6 default).hop_info = 4 ∧
    find_closer_free_bucket 8 4 c7wseg 1 = FcRes.ub := by decide

/-- C7, amended: a displacement round behaves as claimed provided the
selected donor `C + j` does not lie past the segment's last bucket (when it
does, the code adjusts the wrong pointer and accesses out of bounds; see
the counterexample).  Conjuncts: (1) the donor selection is exactly the
largest `j` with `1 ≤ j < offset_from_C` whose bit is set in the
candidate's bitmap; (2) a round whose candidate at index `check` selects
donor `j` (with `check + j` in bounds) returns the donor as the new free
bucket with new distance `offset_from_C = bidx`, having copied the donor's
key and value into the free bucket, emptied the donor, set bit `bidx` and
cleared bit `j` of the candidate's bitmap, incremented the segment
timestamp, and touched no other bucket; (3) a failing scan returns the
segment untouched; (4) if no round finds a movable donor the scan reports
failure. -/
theorem c7_round_amended (B : Nat) :
    (∀ hop bidx j, moveDistance hop bidx = some j ↔
      (1 ≤ j ∧ j < bidx ∧ hop.testBit j = true ∧
        ∀ m, j < m → m < bidx → hop.testBit m = false)) ∧
    (∀ (seg : hs_segment_t) (free check b j : Nat),
      seg.bucket_array.length = B → free < B → check < B →
      free ≠ check → free ≠ check + j →
      moveDistance ((seg.bucket_array.getD check default).hop_info) (b + 1)
        = some j →
      check + j ≤ B - 1 →
      fc_loop B seg free check (b + 1) =
          FcRes.moved (fc_swap seg free check (b + 1) j) (check + j) (b + 1) ∧
        (fc_swap seg free check (b + 1) j).timestamp = seg.timestamp + 1 ∧
        ((fc_swap seg free check (b + 1) j).bucket_array.getD free default).hkey
          = (seg.bucket_array.getD (check + j) default).hkey ∧
        ((fc_swap seg free check (b + 1) j).bucket_array.getD free default).data
          = (seg.bucket_array.getD (check + j) default).data ∧
        ((fc_swap seg free check (b + 1) j).bucket_array.getD (check + j)
            default).hkey = 0 ∧
        ((fc_swap seg free check (b + 1) j).bucket_array.getD (check + j)
            default).data = 0 ∧
        ((fc_swap seg free check (b + 1) j).bucket_array.getD check
            default).hop_info
          = clearBit
              ((seg.bucket_array.getD check default).hop_info ||| 2 ^ (b + 1))
              j ∧
        (∀ m, m ≠ free → m ≠ check → m ≠ check + j →
          (fc_swap seg free check (b + 1) j).bucket_array.getD m default
            = seg.bucket_array.getD m default)) ∧
    (∀ (seg s : hs_segment_t) (free check bidx : Nat),
      fc_loop B seg free check bidx = FcRes.fail s → s = seg) ∧
    (∀ (seg : hs_segment_t) (free check bidx : Nat),
      (∀ t, t < bidx →
        moveDistance
          ((seg.bucket_array.getD (fc_path B check t) default).hop_info)
          (bidx - t) = none) →
      fc_loop B seg free check bidx = FcRes.fail seg) := by
  refine ⟨fun hop bidx j => moveDistance_some_iff hop bidx j, ?_,
    fun seg s free check bidx h => fc_loop_fail h,
    fun seg free check bidx h => fc_loop_fail_of_no_donor h⟩
  intro seg free check b j hlen hfree hcheck hne1 hne2 hmd hnf
  have hj1 : 1 ≤ j := ((moveDistance_some_iff _ _ _).mp hmd).1
  have hcknf : check ≠ check + j := by omega
  have hl1 : (upd seg.bucket_array check
      (fun b0 => { b0 with hop_info := b0.hop_info ||| 2 ^ (b + 1) })).length
      = B := by rw [upd_length, hlen]
  have hl2 : (upd (upd seg.bucket_array check
        (fun b0 => { b0 with hop_info := b0.hop_info ||| 2 ^ (b + 1) }))
      check
      (fun b0 => { b0 with hop_info := clearBit b0.hop_info j })).length
      = B := by rw [upd_length, hl1]
  have hl3 : ∀ f, (upd (upd (upd seg.bucket_array check
        (fun b0 => { b0 with hop_info := b0.hop_info ||| 2 ^ (b + 1) }))
      check
      (fun b0 => { b0 with hop_info := clearBit b0.hop_info j }))
      free f).length = B := by
    intro f
    rw [upd_length, hl2]
  have hnfB : check + j < B := by omega
  -- the donor bucket read at lines 289-290 is the original one: the two
  -- bitmap writes touched only the candidate bucket
  have hdonor : (upd (upd seg.bucket_array check
        (fun b0 => { b0 with hop_info := b0.hop_info ||| 2 ^ (b + 1) }))
      check
      (fun b0 => { b0 with hop_info := clearBit b0.hop_info j })).getD
      (check + j) default = seg.bucket_array.getD (check + j) default := by
    rw [upd_getD_ne _ _ _ _ (Ne.symm hcknf), upd_getD_ne _ _ _ _ (Ne.symm hcknf)]
  refine ⟨?_, rfl, ?_, ?_, ?_, ?_, ?_, ?_⟩
  · simp only [fc_loop, hmd]
    rw [if_neg (by omega)]
  · simp only [fc_swap, hdonor]
    rw [upd_getD_ne _ _ _ _ hne2, upd_getD_self _ _ _ (by rw [hl2]; exact hfree)]
  · simp only [fc_swap, hdonor]
    rw [upd_getD_ne _ _ _ _ hne2, upd_getD_self _ _ _ (by rw [hl2]; exact hfree)]
  · simp only [fc_swap]
    rw [upd_getD_self _ _ _ (by rw [hl3]; exact hnfB)]
  · simp only [fc_swap]
    rw [upd_getD_self _ _ _ (by rw [hl3]; exact hnfB)]
  · simp only [fc_swap]
    rw [upd_getD_ne _ _ _ _ hcknf, upd_getD_ne _ _ _ _ (Ne.symm hne1),
      upd_getD_self _ _ _ (by rw [hl1]; exact hcheck),
      upd_getD_self _ _ _ (by rw [hlen]; exact hcheck)]
  · intro m hm1 hm2 hm3
    simp only [fc_swap]
    rw [upd_getD_ne _ _ _ _ hm3, upd_getD_ne _ _ _ _ hm1,
      upd_getD_ne _ _ _ _ hm2, upd_getD_ne _ _ _ _ hm2]

/-- Witness for C7 (amended): in `c7seg` (`B = 8`), with the free bucket at
index 5 and the candidate at index 2 whose bitmap `6` has bits 1 and 2 set,
the round selects the larger donor offset 2 and moves the key 18 from
bucket 4 into bucket 5. -/
theorem c7_round_amended_witness :
    moveDistance 6 3 = some 2 ∧
    fc_loop 8 c7seg 5 2 3 = FcRes.moved (fc_swap c7seg 5 2 3 2) 4 3 ∧
    (fc_swap c7seg 5 2 3 2).timestamp = c7seg.timestamp + 1 ∧
    ((fc_swap c7seg 5 2 3 2).bucket_array.getD 5 default).hkey = 18 := by
  have h := (c7_round_amended 8).2.1 c7seg 5 2 2 2 (by decide) (by decide)
    (by decide) (by decide) (by decide) (by decide) (by decide)
  exact ⟨by decide, h.1, h.2.1, h.2.2.1⟩

/-- C8: the hop range bound fails on the code, on the same run as C1: in the
state after the six serialized puts of `c1kvs`, bucket 4 is non-empty and
holds hashed key 48, whose home bucket is `48 mod 16 = 0`; its offset from
home is `4`, not strictly less than `R = 4` - `hs_put` wrote the key there
because the displacement round reported distance 3 for a bucket at true
offset 4. -/
theorem c8_hop_range_violated :
    putList 16 4 16 (freshSeg 16) c1kvs = some c1final ∧
    (c1final.bucket_array.getD 4 default).hkey = 48 ∧
    48 % 16 = 0 ∧
    ¬ ((4 - 48 % 16) % 16 < 4) := by decide

/-- C9: `hs_put` does not terminate on a full segment.  With `B = A = R = 2`
and both buckets occupied (`c9full`), a put of the fresh hashed key 4
probes `A` buckets without finding a free one and falls through to
`resize(); hs_put(table, key, data);` (lines 179-180); `hs_resize` is an
empty stub, so the restarted put sees the identical state: no number of
restarts produces a result - the code neither succeeds nor raises
OutOfMemory or CapacityExhausted, it recurses forever. -/
theorem c9_put_restarts_forever :
    hs_put_seg 2 2 2 c9full 4 9 = PutRes.needResize c9full ∧
    ∀ fuel, hs_putFuel 2 2 2 fuel c9full 4 9 = PutOut.diverge := by
  refine ⟨by decide, ?_⟩
  intro fuel
  induction fuel with
  | zero => rfl
  | succ n ih =>
    rw [hs_putFuel,
      show hs_put_seg 2 2 2 c9full 4 9 = PutRes.needResize c9full by decide]
    exact ih

/-- C10: `hs_get` is a pure reader, confirmed: for every segment state and
hashed key, the segment state after the call (threaded through the retry
loop) is the segment state before it - the function writes no field of the
segment or its buckets. -/
theorem c10_get_writes_nothing (B T : Nat) (seg : hs_segment_t) (k : Nat) :
    (hs_get B T seg k).2 = seg :=
  hs_get_go_snd B T (k % B) k (T + 1) seg 0

end Hopscotch

